import Mathlib

/-!
Verification of the anomaly-detection and analysis-orchestration core of the
`AI_analyzer` repository, as a shallow embedding in Lean 4.

Conventions used throughout:
* Python floats are modelled by exact rationals (`ℚ`); arithmetic that the
  source performs on IEEE doubles is performed exactly here.
* Python dicts carrying records are modelled by structures holding the fields
  the embedded code reads; `dict.get(k, default)` on an optional field becomes
  `Option.getD`.
* A fallible Python expression (`float(x)` on a non-numeric value) is modelled
  by an `Option` that is `none` exactly when the source would raise.
* `list.sort` / `sorted` (Timsort, a stable sort) is modelled by
  `List.insertionSort`, which is also stable and sorts by the same key order.
-/

set_option autoImplicit false

attribute [local semireducible] Rat.mul Rat.add Rat.inv Rat.sub Rat.ofScientific

namespace IA

/-- Key identifying one measured quantity: the `(suite, case, metric)` triple
used as dict key throughout `ia/analyzer/anomaly.py`. -/
abbrev MetricKey := String × String × String

/-- One entry of the current run, with the fields read by the analyzer
(`suite`, `case`, `metric`, `value`, `unit`).  The `case` dict key is called
`caseName` because `case` is reserved in Lean. -/
structure Entry where
  suite : String
  caseName : String
  metric : String
  value : ℚ
  unit : Option String := none
deriving DecidableEq, Repr

/-- The `(e.get("suite",""), e.get("case",""), e.get("metric",""))` key of an
entry. -/
def entryKey (e : Entry) : MetricKey := (e.suite, e.caseName, e.metric)

/-- Python `sorted` on numbers (`statistics.median` sorts its input). -/
def pySorted (l : List ℚ) : List ℚ := l.insertionSort (· ≤ ·)

/-- `statistics.median`: middle element of the sorted data for odd length,
mean of the two middle elements for even length.  Python raises on empty
input; every call site in the source guards non-emptiness, and we return `0`
there (the value is never used). -/
def pyMedian (l : List ℚ) : ℚ :=
  let s := pySorted l
  let n := l.length
  if n % 2 = 1 then s.getD (n / 2) 0
  else (s.getD (n / 2 - 1) 0 + s.getD (n / 2) 0) / 2

/-- `median_absolute_deviation` from `ia/analyzer/anomaly.py` lines 25-30:
median of absolute deviations from the median, `0.0` for empty input.
(The source's `or 0.0` only rewrites float `-0.0`; it is the identity on ℚ.) -/
def median_absolute_deviation (values : List ℚ) : ℚ :=
  if values = [] then 0
  else
    let med := pyMedian values
    let deviations := values.map (fun v => |v - med|)
    pyMedian deviations

/-- `mean` from `ia/analyzer/anomaly.py` lines 33-36. -/
def mean (values : List ℚ) : ℚ :=
  if values = [] then 0 else values.sum / values.length

/-- `robust_z_score` from `ia/analyzer/anomaly.py` lines 39-46: `None` when
the history is empty or its MAD is zero, otherwise
`(current - median) / (1.4826 * MAD)`. -/
def robust_z_score (current : ℚ) (history : List ℚ) : Option ℚ :=
  if history = [] then none
  else
    let med := pyMedian history
    let mad := median_absolute_deviation history
    if mad = 0 then none
    else some ((current - med) / ((14826/10000) * mad))

/-- `pct_change_vs_median` from `ia/analyzer/anomaly.py` lines 49-55. -/
def pct_change_vs_median (current : ℚ) (history : List ℚ) : Option ℚ :=
  if history = [] then none
  else
    let med := pyMedian history
    if med = 0 then none
    else some ((current - med) / med)

/-- `pct_change_vs_mean` from `ia/analyzer/anomaly.py` lines 58-64. -/
def pct_change_vs_mean (current : ℚ) (history : List ℚ) : Option ℚ :=
  if history = [] then none
  else
    let mu := mean history
    if mu = 0 then none
    else some ((current - mu) / mu)

/-- Substring test: Python's `pat in s` on strings, via the character lists. -/
def charsContain (pat : List Char) : List Char → Bool
  | [] => decide (pat = [])
  | c :: rest => pat.isPrefixOf (c :: rest) || charsContain pat rest

/-- Python `pat in s` for strings. -/
def strContains (s pat : String) : Bool := charsContain pat.toList s.toList

/-- Order-preserving de-duplication, Python's `list(dict.fromkeys(l))`:
keeps the first occurrence of each element. -/
def dedupKeepFirst : List String → List String
  | [] => []
  | x :: rest => x :: (dedupKeepFirst rest).filter (fun y => y ≠ x)

/-- Rounding used to model Python's fixed-point float formatting
(round-half-to-even). -/
def roundHalfEven (q : ℚ) : ℤ :=
  let f := ⌊q⌋
  let r := q - f
  if r < 1/2 then f else if 1/2 < r then f + 1 else if 2 ∣ f then f else f + 1

/-- Model of the f-string format `f"{x:.2f}"` (two decimal places).  The
source formats an IEEE double; we format the exact rational. -/
def fmtFixed2 (q : ℚ) : String :=
  let n := roundHalfEven (q * 100)
  let a := n.natAbs
  let sign := if n < 0 then "-" else ""
  let frac := a % 100
  sign ++ toString (a / 100) ++ "." ++
    (if frac < 10 then "0" ++ toString frac else toString frac)

/-- Model of the f-string format `f"{x:+.0%}"` (signed whole percent). -/
def fmtSignedPct (q : ℚ) : String :=
  let n := roundHalfEven (q * 100)
  (if n < 0 then "-" ++ toString n.natAbs else "+" ++ toString n.natAbs) ++ "%"

/-- Python `", ".join l`. -/
def joinComma : List String → String
  | [] => ""
  | [x] => x
  | x :: rest => x ++ ", " ++ joinComma rest

/-- `generate_check_suggestions` from `ia/analyzer/anomaly.py` lines 134-200:
keyword-directed suggestion list, extended by deviation direction and
magnitude, de-duplicated in order and truncated to five.  The unused fourth
parameter of the source is dropped.  Shell quotes and braces inside the
literal strings are written with `\x27`/`\x7b`/`\x7d` escapes; the string
values are those of the source. -/
def generate_check_suggestions (e : Entry) (robust_z pct_change : Option ℚ) :
    List String :=
  let base_checks : List String := [
    "检查 /proc/cpuinfo 确认CPU频率和核心配置",
    "查看 /sys/devices/system/cpu/cpu*/cpufreq/scaling_governor 检查频率调节策略",
    "运行 htop 检查系统负载和进程状态"]
  let metric := e.metric.toLower
  let suggestions : List String :=
    if strContains metric "dhrystone" || strContains metric "整数" then [
      "检查CPU缓存配置：cat /sys/devices/system/cpu/cpu*/cache/index*/size",
      "确认编译器优化级别和指令集支持：gcc -march=native -Q --help=target"]
    else if strContains metric "whetstone" || strContains metric "浮点" then [
      "检查浮点单元状态：cat /proc/cpuinfo | grep -E \x27(fpu|vfp|neon)\x27",
      "验证浮点运算优化：lscpu | grep -E \x27(Flags|Features)\x27"]
    else if strContains metric "copy" || strContains metric.toLower "io" then [
      "检查内存带宽：cat /proc/meminfo | grep -E \x27(MemTotal|MemAvailable)\x27",
      "确认存储I/O状态：iostat -x 1 3"]
    else if strContains metric "process" || strContains metric "进程" then [
      "检查进程调度策略：cat /proc/sys/kernel/sched_*",
      "查看系统调用开销：strace -c -f -S time sleep 1"]
    else if strContains metric "syscall" || strContains metric "系统调用" then [
      "检查内核版本和配置：uname -a && cat /proc/version",
      "查看系统调用表：cat /proc/kallsyms | grep sys_call_table"]
    else []
  let suggestions := suggestions ++
    (match robust_z with
     | some z =>
       if z < -2 then [
         "查看热限频告警：dmesg | grep -E \x27(thermal|throttle)\x27",
         "检查是否进入节能模式：cat /sys/devices/system/cpu/cpu*/cpufreq/scaling_cur_freq",
         "确认没有资源限制：cat /proc/cgroups && systemctl status"]
       else if 2 < z then [
         "确认测试环境一致性：比较内核参数和编译选项",
         "检查是否有性能优化配置变更：cat /proc/sys/kernel/perf_*"]
       else []
     | none => [])
  let suggestions := suggestions ++
    (match pct_change with
     | some p =>
       if 1/2 < |p| then [
         "检查硬件配置变更：lscpu && lshw -short",
         "验证内核和驱动版本：modinfo $(lsmod | awk \x27NR>1 \x7bprint $1\x7d\x27) | grep -E \x27(version|description)\x27"]
       else []
     | none => [])
  let suggestions := suggestions ++ base_checks.take 2
  (dedupKeepFirst suggestions).take 5

/-- Per-anomaly `deltas` sub-dict (`ia/analyzer/anomaly.py` lines 262-265). -/
structure Deltas where
  vs_median_pct : Option ℚ
  robust_z : Option ℚ
deriving DecidableEq, Repr

/-- Per-anomaly `supporting_evidence` sub-dict
(`ia/analyzer/anomaly.py` lines 267-271). -/
structure SupportingEvidence where
  history_n : ℕ
  mean : Option ℚ
  median : Option ℚ
deriving DecidableEq, Repr

/-- Anomaly record emitted by `heuristic_anomalies`
(`ia/analyzer/anomaly.py` lines 253-273).  `root_causes` is always the empty
list there; its element type is irrelevant and taken to be `String`. -/
structure AnomalyRecord where
  suite : String
  caseName : String
  metric : String
  current_value : ℚ
  unit : Option String
  severity : String
  confidence : ℚ
  primary_reason : String
  deltas : Deltas
  root_causes : List String
  supporting_evidence : SupportingEvidence
  suggested_next_checks : List String
deriving DecidableEq, Repr

/-- Severity classification of `heuristic_anomalies`
(`ia/analyzer/anomaly.py` lines 226-245): tiered AND-rule over the robust
z-score and the percentage change, returning the severity (if any) together
with the accumulated `reason_parts`. -/
def severityAndReason (rz pct : Option ℚ) : Option String × List String :=
  match rz, pct with
  | some z, some p =>
    if 8 ≤ |z| ∧ 1/2 ≤ |p| then
      (some "high", ["robust_z=" ++ fmtFixed2 z, "Δ vs median=" ++ fmtSignedPct p])
    else if 6 ≤ |z| ∧ 7/20 ≤ |p| then
      (some "medium", ["robust_z=" ++ fmtFixed2 z, "Δ vs median=" ++ fmtSignedPct p])
    else if 4 ≤ |z| ∧ 1/4 ≤ |p| then
      (some "low", ["robust_z=" ++ fmtFixed2 z, "Δ vs median=" ++ fmtSignedPct p])
    else (none, [])
  | _, _ => (none, [])

/-- Body of the per-entry loop of `heuristic_anomalies`
(`ia/analyzer/anomaly.py` lines 212-273): `none` when the entry is skipped,
`some record` when an anomaly record is appended to the result list. -/
def detectEntry (history : MetricKey → List ℚ) (min_samples_for_anomaly : ℕ)
    (e : Entry) : Option AnomalyRecord :=
  let hist := history (entryKey e)
  if hist.length < min_samples_for_anomaly then none
  else
    let current := e.value
    let rz := robust_z_score current hist
    let pct := pct_change_vs_median current hist
    match severityAndReason rz pct with
    | (none, _) => none
    | (some severity, reason_parts) =>
      let confidence_base : ℚ := if 100 ≤ hist.length then 7/10 else 6/10
      let confidence := min (19/20) (confidence_base + (1/20) * (|rz.getD 0| / 10))
      some {
        suite := e.suite
        caseName := e.caseName
        metric := e.metric
        current_value := current
        unit := e.unit
        severity := severity
        confidence := confidence
        primary_reason :=
          if joinComma reason_parts = "" then "significant deviation"
          else joinComma reason_parts
        deltas := { vs_median_pct := pct, robust_z := rz }
        root_causes := []
        supporting_evidence := {
          history_n := hist.length
          mean := if hist = [] then none else some (mean hist)
          median := if hist = [] then none else some (pyMedian hist) }
        suggested_next_checks := generate_check_suggestions e rz pct }

/-- `heuristic_anomalies` from `ia/analyzer/anomaly.py` lines 203-274: the
per-entry records, in entry order.  `history` is the history dict as a total
function (`history.get(key, [])`). -/
def heuristic_anomalies (entries : List Entry) (history : MetricKey → List ℚ)
    (min_samples_for_anomaly : ℕ := 10) : List AnomalyRecord :=
  entries.filterMap (detectEntry history min_samples_for_anomaly)

/-! ### Theorems for claims C1, C2, C8 -/

/-- A single-entry run produces the per-entry detection result. -/
theorem heuristic_singleton (history : MetricKey → List ℚ) (minS : ℕ) (e : Entry) :
    heuristic_anomalies [e] history minS = (detectEntry history minS e).toList := by
  unfold heuristic_anomalies
  rcases h : detectEntry history minS e with _ | r <;>
    simp [List.filterMap_cons, h]

/-- C1: the statistical detector emits an anomaly record for an entry iff the
entry's history has at least `min_samples_for_anomaly` samples and both
thresholds of some severity tier hold simultaneously (the robust z-score and
percentage change being defined), and the emitted severity is the highest
tier whose AND-condition holds; an entry below the sample minimum is never
flagged. -/
theorem heuristic_anomalies_emission_iff (history : MetricKey → List ℚ)
    (minS : ℕ) (e : Entry) :
    (heuristic_anomalies [e] history minS ≠ [] ↔
      minS ≤ (history (entryKey e)).length ∧
        ∃ z p, robust_z_score e.value (history (entryKey e)) = some z ∧
          pct_change_vs_median e.value (history (entryKey e)) = some p ∧
          ((8 ≤ |z| ∧ 1/2 ≤ |p|) ∨ (6 ≤ |z| ∧ 7/20 ≤ |p|) ∨
            (4 ≤ |z| ∧ 1/4 ≤ |p|))) ∧
    (∀ r, heuristic_anomalies [e] history minS = [r] →
      ∃ z p, robust_z_score e.value (history (entryKey e)) = some z ∧
        pct_change_vs_median e.value (history (entryKey e)) = some p ∧
        r.severity = (if 8 ≤ |z| ∧ 1/2 ≤ |p| then "high"
          else if 6 ≤ |z| ∧ 7/20 ≤ |p| then "medium" else "low")) := by
  rw [heuristic_singleton]
  by_cases hlen : (history (entryKey e)).length < minS
  · have hnone : detectEntry history minS e = none := by
      unfold detectEntry
      simp [hlen]
    rw [hnone]
    constructor
    · simp
      intro h
      omega
    · intro r hr
      simp at hr
  · push_neg at hlen
    rcases hrz : robust_z_score e.value (history (entryKey e)) with _ | z
    · have hnone : detectEntry history minS e = none := by
        unfold detectEntry
        simp only [if_neg (Nat.not_lt.mpr hlen), hrz, severityAndReason]
      rw [hnone]
      constructor
      · simp [hrz]
      · intro r hr
        simp at hr
    · rcases hpct : pct_change_vs_median e.value (history (entryKey e)) with _ | p
      · have hnone : detectEntry history minS e = none := by
          unfold detectEntry
          simp only [if_neg (Nat.not_lt.mpr hlen), hrz, hpct, severityAndReason]
        rw [hnone]
        constructor
        · simp [hpct]
        · intro r hr
          simp at hr
      · simp only [detectEntry, if_neg (Nat.not_lt.mpr hlen), hrz, hpct]
        by_cases h1 : 8 ≤ |z| ∧ 1/2 ≤ |p|
        · simp only [severityAndReason, if_pos h1]
          refine ⟨⟨fun _ => ⟨hlen, z, p, rfl, rfl, Or.inl h1⟩, fun _ => by simp⟩, ?_⟩
          intro r hr
          simp only [Option.toList_some, List.cons.injEq, and_true] at hr
          refine ⟨z, p, rfl, rfl, ?_⟩
          rw [← hr, if_pos h1]
        · by_cases h2 : 6 ≤ |z| ∧ 7/20 ≤ |p|
          · simp only [severityAndReason, if_neg h1, if_pos h2]
            refine ⟨⟨fun _ => ⟨hlen, z, p, rfl, rfl, Or.inr (Or.inl h2)⟩,
              fun _ => by simp⟩, ?_⟩
            intro r hr
            simp only [Option.toList_some, List.cons.injEq, and_true] at hr
            refine ⟨z, p, rfl, rfl, ?_⟩
            rw [← hr, if_neg h1, if_pos h2]
          · by_cases h3 : 4 ≤ |z| ∧ 1/4 ≤ |p|
            · simp only [severityAndReason, if_neg h1, if_neg h2, if_pos h3]
              refine ⟨⟨fun _ => ⟨hlen, z, p, rfl, rfl, Or.inr (Or.inr h3)⟩,
                fun _ => by simp⟩, ?_⟩
              intro r hr
              simp only [Option.toList_some, List.cons.injEq, and_true] at hr
              refine ⟨z, p, rfl, rfl, ?_⟩
              rw [← hr, if_neg h1, if_neg h2]
            · simp only [severityAndReason, if_neg h1, if_neg h2, if_neg h3]
              constructor
              · simp only [Option.toList_none, ne_eq, not_true_eq_false, false_iff]
                rintro ⟨-, z', p', hz', hp', hdisj⟩
                cases hz'
                cases hp'
                rcases hdisj with h | h | h
                · exact h1 h
                · exact h2 h
                · exact h3 h
              · intro r hr
                simp at hr

/-- Concrete history for the C1 witness. -/
def histC1 : List ℚ := [100, 101, 99, 100, 102, 98, 101, 100, 99, 100]

/-- Concrete entry for the C1 witness (value 200 on a baseline of median 100,
MAD 1: z = 500000/7413, pct = 1). -/
def entryC1 : Entry :=
  { suite := "ub", caseName := "d", metric := "dhrystone", value := 200 }

/-- Witness for C1 at a concrete input: the tier condition holds, so a record
is emitted. -/
theorem heuristic_anomalies_emission_iff_witness :
    heuristic_anomalies [entryC1] (fun _ => histC1) 10 ≠ [] :=
  (heuristic_anomalies_emission_iff (fun _ => histC1) 10 entryC1).1.mpr
    ⟨by decide, 500000/7413, 1, by decide, by decide, Or.inl (by decide)⟩

/-- C2: whenever the history's median absolute deviation is zero (the empty
history included), `robust_z_score` returns `none` — never a
division-by-zero value — and consequently the detector assigns no severity
to such an entry. -/
theorem robust_z_score_undefined_of_mad_zero :
    (∀ (current : ℚ) (history : List ℚ),
        median_absolute_deviation history = 0 →
        robust_z_score current history = none) ∧
    (∀ (history : MetricKey → List ℚ) (minS : ℕ) (e : Entry),
        median_absolute_deviation (history (entryKey e)) = 0 →
        detectEntry history minS e = none) := by
  have h1 : ∀ (current : ℚ) (history : List ℚ),
      median_absolute_deviation history = 0 →
      robust_z_score current history = none := by
    intro c hist hm
    unfold robust_z_score
    by_cases hh : hist = []
    · simp [hh]
    · simp [hh, hm]
  refine ⟨h1, ?_⟩
  intro history minS e hm
  have hz := h1 e.value (history (entryKey e)) hm
  by_cases hlen : (history (entryKey e)).length < minS
  · simp [detectEntry, hlen]
  · simp only [detectEntry, if_neg hlen]
    rcases hp : pct_change_vs_median e.value (history (entryKey e)) with _ | p <;>
      simp [hz, hp, severityAndReason]

/-- Witness for C2 at a concrete input: a constant history has MAD 0 and the
z-score is undefined, departure magnitude notwithstanding. -/
theorem robust_z_score_undefined_of_mad_zero_witness :
    robust_z_score 5000 [3, 3, 3] = none ∧
    detectEntry (fun _ => [3, 3, 3]) 1
      { suite := "s", caseName := "c", metric := "m", value := 5000 } = none :=
  ⟨robust_z_score_undefined_of_mad_zero.1 5000 [3, 3, 3] (by decide),
   robust_z_score_undefined_of_mad_zero.2 (fun _ => [3, 3, 3]) 1 _ (by decide)⟩

/-- Concrete history of the spec's C8 scenario. -/
def histC8 : List ℚ := [100, 101, 99, 100, 102, 98, 101, 100, 99, 100]

/-- Concrete entry of the spec's C8 scenario (current value 140). -/
def entryC8 : Entry :=
  { suite := "ub", caseName := "c", metric := "m", value := 140 }

/-- C8 counterexample: on the scenario's input the detector does NOT assign
severity `high` (the claim asserts `high`). -/
theorem heuristic_scenario_not_high :
    (heuristic_anomalies [entryC8] (fun _ => histC8) 10).map
      (fun r => r.severity) ≠ ["high"] := by
  decide

/-- C8 amended: on the scenario's input the detector computes median 100,
MAD 1, percentage change 2/5 and robust z-score 200000/7413 (approximately
27), and assigns severity `medium` — the 0.40 percentage change is below the
`high` tier's 0.50 threshold but meets the `medium` tier's 0.35. -/
theorem heuristic_scenario_severity_medium :
    pyMedian histC8 = 100 ∧
    median_absolute_deviation histC8 = 1 ∧
    pct_change_vs_median 140 histC8 = some (2/5) ∧
    robust_z_score 140 histC8 = some (200000/7413) ∧
    |(200000/7413 : ℚ) - 27| < 1/25 ∧
    (heuristic_anomalies [entryC8] (fun _ => histC8) 10).map
      (fun r => r.severity) = ["medium"] := by
  decide


/-! ### Baseline builder (`load_history_for_keys`, `ia/analyzer/anomaly.py`
lines 67-131) and claim C4 -/

/-- One stored row of an archived `ub.jsonl` file, with the fields the
baseline builder reads.  `value` is `none` when `float(row.get("value"))`
would raise (missing or non-numeric), `some v` otherwise. -/
structure ArchiveRow where
  suite : String
  caseName : String
  metric : String
  value : Option ℚ
deriving DecidableEq, Repr

/-- The `(row.get("suite",""), row.get("case",""), row.get("metric",""))`
key of a stored row. -/
def rowKey (r : ArchiveRow) : MetricKey := (r.suite, r.caseName, r.metric)

/-- Number of valid (numeric) samples available for key `k` over the whole
archive: the count the full pre-scan of lines 89-100 accumulates in
`total_counts[k]`.  `files` is the archive's row lists, newest file first
(the source sorts the glob results in reverse order). -/
def availCount (files : List (List ArchiveRow)) (k : MetricKey) : ℕ :=
  (files.flatten.filter (fun r => decide (rowKey r = k) && r.value.isSome)).length

/-- Maximum available sample count across the requested keys
(`max(total_counts.values())`, line 106; `0` when nothing is available). -/
def maxAvailable (files : List (List ArchiveRow)) (keys : List MetricKey) : ℕ :=
  (keys.map (availCount files)).foldr max 0

/-- Effective sample cap when `max_runs` is `None` (lines 87-113): when some
requested key has at least one valid sample (`total_counts` non-empty),
`max(min_samples, max_available)`; otherwise the hard default `30`. -/
def dynamicCap (files : List (List ArchiveRow)) (keys : List MetricKey)
    (min_samples : ℕ) : ℕ :=
  if keys.any (fun k => decide (0 < availCount files k)) then
    max min_samples (maxAvailable files keys)
  else 30

/-- Pointwise update of a history map. -/
def histUpdate (h : MetricKey → List ℚ) (k : MetricKey) (v : List ℚ) :
    MetricKey → List ℚ :=
  fun k' => if k' = k then v else h k'

/-- Body of the row loop of lines 117-127: a row whose key is requested and
whose value parses is appended to that key's history while the history is
shorter than `max_runs`. -/
def processRow (max_runs : ℕ) (keys : List MetricKey)
    (h : MetricKey → List ℚ) (r : ArchiveRow) : MetricKey → List ℚ :=
  if rowKey r ∈ keys then
    match r.value with
    | some v =>
      if (h (rowKey r)).length < max_runs then
        histUpdate h (rowKey r) (h (rowKey r) ++ [v])
      else h
    | none => h
  else h

/-- The file loop of lines 115-130, including the early exit once every
requested key has reached `max_runs` samples. -/
def scanFiles (max_runs : ℕ) (keys : List MetricKey) :
    List (List ArchiveRow) → (MetricKey → List ℚ) → (MetricKey → List ℚ)
  | [], h => h
  | f :: fs, h =>
    let h2 := f.foldl (processRow max_runs keys) h
    if keys.all (fun k => decide (max_runs ≤ (h2 k).length)) then h2
    else scanFiles max_runs keys fs h2

/-- `load_history_for_keys` from `ia/analyzer/anomaly.py` lines 67-131.
`files` stands for the glob-scan result, newest file first; the history dict
is modelled as a total function defaulting to `[]` (the source uses a
`defaultdict(list)`). -/
def load_history_for_keys (files : List (List ArchiveRow))
    (keys : List MetricKey) (max_runs : Option ℕ) (min_samples : ℕ := 10) :
    MetricKey → List ℚ :=
  let cap := match max_runs with
    | some m => m
    | none => dynamicCap files keys min_samples
  scanFiles cap keys files (fun _ => [])

/-- The newest-first stream of valid values for key `k` over a row list. -/
def rowsStream (rows : List ArchiveRow) (k : MetricKey) : List ℚ :=
  rows.filterMap (fun r => if rowKey r = k then r.value else none)

/-- The newest-first stream of valid values for key `k` over the archive. -/
def keyStream (files : List (List ArchiveRow)) (k : MetricKey) : List ℚ :=
  rowsStream files.flatten k

/-- Invariant of the scan: each requested key's history is the cap-bounded
prefix of the newest-first value stream of the rows processed so far. -/
def ScanInv (cap : ℕ) (keys : List MetricKey) (h : MetricKey → List ℚ)
    (rows : List ArchiveRow) : Prop :=
  ∀ k ∈ keys, h k = (rowsStream rows k).take cap

theorem rowsStream_append (rows rows2 : List ArchiveRow) (k : MetricKey) :
    rowsStream (rows ++ rows2) k = rowsStream rows k ++ rowsStream rows2 k :=
  List.filterMap_append ..

theorem processRow_inv (cap : ℕ) (keys : List MetricKey)
    (h : MetricKey → List ℚ) (r : ArchiveRow) (rows : List ArchiveRow)
    (hinv : ScanInv cap keys h rows) :
    ScanInv cap keys (processRow cap keys h r) (rows ++ [r]) := by
  intro k hk
  rw [rowsStream_append]
  by_cases hkey : rowKey r = k
  · subst hkey
    have hmem : rowKey r ∈ keys := hk
    have hs := hinv _ hk
    rcases hv : r.value with _ | v
    · have hone : rowsStream [r] (rowKey r) = [] := by
        simp [rowsStream, List.filterMap_cons, hv]
      have hpr : processRow cap keys h r (rowKey r) = h (rowKey r) := by
        simp [processRow, hmem, hv]
      rw [hone, List.append_nil, hpr, hs]
    · have hone : rowsStream [r] (rowKey r) = [v] := by
        simp [rowsStream, List.filterMap_cons, hv]
      have hpr : processRow cap keys h r (rowKey r)
          = (if (h (rowKey r)).length < cap
              then h (rowKey r) ++ [v] else h (rowKey r)) := by
        simp only [processRow, if_pos hmem, hv]
        split
        · simp [histUpdate]
        · rfl
      rw [hone, hpr]
      by_cases hlt : (h (rowKey r)).length < cap
      · have hlen : (rowsStream rows (rowKey r)).length < cap := by
          rw [hs] at hlt
          simp only [List.length_take] at hlt
          omega
        have hlen2 : (rowsStream rows (rowKey r) ++ [v]).length ≤ cap := by
          simp only [List.length_append, List.length_cons, List.length_nil]
          omega
        rw [if_pos hlt, hs, List.take_of_length_le (le_of_lt hlen),
          List.take_of_length_le hlen2]
      · have hlen : cap ≤ (rowsStream rows (rowKey r)).length := by
          rw [hs] at hlt
          simp only [List.length_take] at hlt
          omega
        rw [if_neg hlt, hs, List.take_append_of_le_length hlen]
  · have hone : rowsStream [r] k = [] := by
      simp [rowsStream, List.filterMap_cons, hkey]
    have hval : processRow cap keys h r k = h k := by
      unfold processRow
      split
      · rcases r.value with _ | v
        · rfl
        · split
          · simp only [histUpdate]
            rw [if_neg (fun hh => hkey hh.symm)]
          · rfl
      · rfl
    rw [hone, List.append_nil, hval]
    exact hinv _ hk

theorem processFile_inv (cap : ℕ) (keys : List MetricKey) :
    ∀ (f : List ArchiveRow) (h : MetricKey → List ℚ) (rows : List ArchiveRow),
      ScanInv cap keys h rows →
      ScanInv cap keys (f.foldl (processRow cap keys) h) (rows ++ f) := by
  intro f
  induction f with
  | nil => intro h rows hinv; simpa using hinv
  | cons r rs ih =>
    intro h rows hinv
    have h1 := processRow_inv cap keys h r rows hinv
    have h2 := ih (processRow cap keys h r) (rows ++ [r]) h1
    simpa using h2

theorem scanInv_saturated (cap : ℕ) (keys : List MetricKey)
    (h : MetricKey → List ℚ) (rows rest : List ArchiveRow)
    (hinv : ScanInv cap keys h rows)
    (hfull : ∀ k ∈ keys, cap ≤ (h k).length) :
    ScanInv cap keys h (rows ++ rest) := by
  intro k hk
  have hs := hinv _ hk
  have hlen : cap ≤ (rowsStream rows k).length := by
    have := hfull _ hk
    rw [hs] at this
    simp only [List.length_take] at this
    omega
  rw [rowsStream_append, List.take_append_of_le_length hlen]
  exact hs

theorem scanFiles_inv (cap : ℕ) (keys : List MetricKey) :
    ∀ (files : List (List ArchiveRow)) (h : MetricKey → List ℚ)
      (rows : List ArchiveRow), ScanInv cap keys h rows →
      ScanInv cap keys (scanFiles cap keys files h) (rows ++ files.flatten) := by
  intro files
  induction files with
  | nil => intro h rows hinv; simpa using hinv
  | cons f fs ih =>
    intro h rows hinv
    have h1 := processFile_inv cap keys f h rows hinv
    unfold scanFiles
    by_cases hdone :
        keys.all (fun k => decide (cap ≤ ((f.foldl (processRow cap keys) h) k).length))
    · simp only [hdone, if_true]
      have hfull : ∀ k ∈ keys,
          cap ≤ ((f.foldl (processRow cap keys) h) k).length := by
        intro k hk
        have := List.all_eq_true.mp hdone k hk
        exact of_decide_eq_true this
      have := scanInv_saturated cap keys _ (rows ++ f) fs.flatten h1 hfull
      simpa [List.append_assoc] using this
    · simp only [hdone, if_false]
      have := ih (f.foldl (processRow cap keys) h) (rows ++ f) h1
      simpa [List.append_assoc] using this

/-- C4 (amended): with `max_runs` unset and at least one valid archived
sample among the requested keys, the effective per-key cap is
`max(min_samples, max available across the requested keys)`, and every
returned history array is the cap-bounded prefix of the newest-first value
stream of its key (hence never longer than the effective cap and ordered
newest-first). -/
theorem load_history_for_keys_spec (files : List (List ArchiveRow))
    (keys : List MetricKey) (min_samples : ℕ)
    (hex : ∃ k ∈ keys, 0 < availCount files k) :
    dynamicCap files keys min_samples
        = max min_samples (maxAvailable files keys) ∧
    ∀ k ∈ keys,
      load_history_for_keys files keys none min_samples k
          = (keyStream files k).take (dynamicCap files keys min_samples) ∧
      (load_history_for_keys files keys none min_samples k).length
          ≤ dynamicCap files keys min_samples := by
  have hcap : dynamicCap files keys min_samples
      = max min_samples (maxAvailable files keys) := by
    unfold dynamicCap
    rw [if_pos]
    rw [List.any_eq_true]
    obtain ⟨k, hk, hpos⟩ := hex
    exact ⟨k, hk, decide_eq_true hpos⟩
  refine ⟨hcap, ?_⟩
  intro k hk
  have hinv0 : ScanInv (dynamicCap files keys min_samples) keys
      (fun _ => []) [] := by
    intro k2 _
    simp [rowsStream]
  have hres := scanFiles_inv (dynamicCap files keys min_samples) keys files
    (fun _ => []) [] hinv0
  have hload : load_history_for_keys files keys none min_samples
      = scanFiles (dynamicCap files keys min_samples) keys files
          (fun _ => []) := rfl
  have heq : load_history_for_keys files keys none min_samples k
      = (keyStream files k).take (dynamicCap files keys min_samples) := by
    rw [hload]
    have := hres k hk
    simpa [keyStream] using this
  refine ⟨heq, ?_⟩
  rw [heq]
  simp [List.length_take]

/-- Archive used by the C4 witness: two files, newest first, with two valid
samples and one malformed sample for the single requested key. -/
def filesC4 : List (List ArchiveRow) :=
  [[{ suite := "s", caseName := "c", metric := "m", value := some 5 }],
   [{ suite := "s", caseName := "c", metric := "m", value := none },
    { suite := "s", caseName := "c", metric := "m", value := some 6 }]]

/-- Witness for C4 at a concrete archive: the effective cap is
`max(min_samples, max available)` and the returned history is the capped
newest-first prefix. -/
theorem load_history_for_keys_spec_witness :
    dynamicCap filesC4 [("s", "c", "m")] 1
        = max 1 (maxAvailable filesC4 [("s", "c", "m")]) ∧
    load_history_for_keys filesC4 [("s", "c", "m")] none 1 ("s", "c", "m")
        = (keyStream filesC4 ("s", "c", "m")).take
            (dynamicCap filesC4 [("s", "c", "m")] 1) :=
  ⟨(load_history_for_keys_spec filesC4 [("s", "c", "m")] 1
      ⟨("s", "c", "m"), by decide, by decide⟩).1,
   ((load_history_for_keys_spec filesC4 [("s", "c", "m")] 1
      ⟨("s", "c", "m"), by decide, by decide⟩).2 ("s", "c", "m")
      (by decide)).1⟩

/-- C4 counterexample: when no requested key has any valid archived sample,
the effective cap is the hard default 30, not
`max(min_samples, max available) = max(10, 0) = 10` — the claimed cap
equation fails on the empty archive. -/
theorem load_history_default_cap_counterexample :
    dynamicCap [] [("s", "c", "m")] 10 = 30 ∧
    max 10 (maxAvailable [] [("s", "c", "m")]) = 10 ∧
    dynamicCap [] [("s", "c", "m")] 10
      ≠ max 10 (maxAvailable [] [("s", "c", "m")]) := by
  decide


/-! ### Multi-model client endpoint selection (`K2Client._select_model`,
`ia/analyzer/k2_client.py` lines 245-267) and claim C5 -/

/-- `ModelEndpoint` from `ia/analyzer/k2_client.py` lines 116-129. -/
structure ModelEndpoint where
  name : String
  api_base : String
  api_key : String
  model : String
  enabled : Bool := true
  priority : ℤ := 1
  timeout : ℤ := 120
  max_retries : ℕ := 3
  last_used : ℚ := 0
  error_count : ℕ := 0
  success_count : ℕ := 0
deriving DecidableEq, Repr

/-- The Python sort key of line 258: the tuple
`(priority, -success_count, error_count)`, compared lexicographically. -/
def endpointKey (m : ModelEndpoint) : Lex (ℤ × Lex (ℤ × ℤ)) :=
  toLex (m.priority, toLex (-(m.success_count : ℤ), (m.error_count : ℤ)))

/-- Sort relation of the endpoint ranking (ascending Python tuple order). -/
def endpointLe (a b : ModelEndpoint) : Prop := endpointKey a ≤ endpointKey b

instance : DecidableRel endpointLe :=
  fun a b => inferInstanceAs (Decidable (endpointKey a ≤ endpointKey b))

instance : IsTotal ModelEndpoint endpointLe :=
  ⟨fun a b => le_total (endpointKey a) (endpointKey b)⟩

instance : IsTrans ModelEndpoint endpointLe :=
  ⟨fun _ _ _ => le_trans⟩

/-- The error-count reset of line 251 (`m.error_count = 0`). -/
def resetError (m : ModelEndpoint) : ModelEndpoint := { m with error_count := 0 }

/-- The rate-limited pick of lines 261-267: the first endpoint, in ranked
order, not used within the last half second, else the top-ranked endpoint
(`available[0]`, as an `Option` since Lean requires totality; the source
only reaches it with a non-empty list). -/
def pickFrom (now : ℚ) (ranked : List ModelEndpoint) : Option ModelEndpoint :=
  match ranked.find? (fun m => decide ((1 : ℚ)/2 < now - m.last_used)) with
  | some m => some m
  | none => ranked.head?

/-- `K2Client._select_model` from `ia/analyzer/k2_client.py` lines 245-267,
returning the chosen endpoint together with the (possibly error-reset)
endpoint list.  `list.sort(key=...)` (a stable sort by the ascending tuple
key) is modelled by the stable `insertionSort` by `endpointLe`. -/
def _select_model (models : List ModelEndpoint) (now : ℚ) :
    Option ModelEndpoint × List ModelEndpoint :=
  let available := models.filter (fun m => m.enabled && decide (m.error_count < 5))
  let models2 := if available.isEmpty then models.map resetError else models
  let available2 :=
    if available.isEmpty then models2.filter (fun m => m.enabled) else available
  if available2.isEmpty then (none, models2)
  else (pickFrom now (available2.insertionSort endpointLe), models2)

theorem pickFrom_mem (now : ℚ) (ranked : List ModelEndpoint)
    (m : ModelEndpoint) (h : pickFrom now ranked = some m) : m ∈ ranked := by
  unfold pickFrom at h
  rcases hf : ranked.find? (fun m => decide ((1 : ℚ)/2 < now - m.last_used))
    with _ | x
  · rw [hf] at h
    cases ranked with
    | nil => simp at h
    | cons a rest =>
      simp only [List.head?_cons, Option.some.injEq] at h
      subst h
      exact List.mem_cons_self a rest
  · rw [hf] at h
    cases h
    exact List.mem_of_find?_eq_some hf

theorem pickFrom_head_of_all (now : ℚ) (ranked : List ModelEndpoint)
    (hall : ∀ e ∈ ranked, (1 : ℚ)/2 < now - e.last_used) :
    pickFrom now ranked = ranked.head? := by
  unfold pickFrom
  cases ranked with
  | nil => rfl
  | cons a rest =>
    have hd : decide ((1 : ℚ)/2 < now - a.last_used) = true :=
      decide_eq_true (hall a (List.mem_cons_self a rest))
    rw [List.find?_cons, hd]
    rfl

/-- C5: `_select_model` never returns a disabled endpoint; never returns an
endpoint with error count ≥ 5 while some enabled endpoint with error count
< 5 exists; resets all error counts to 0 when no enabled endpoint has error
count < 5; and (absent rate limiting, i.e. when no endpoint was used within
the last half second) the returned endpoint is minimal in the ascending
`(priority, -success_count, error_count)` ranking among the qualifying
endpoints. -/
theorem select_model_spec (models : List ModelEndpoint) (now : ℚ) :
    (∀ m, (_select_model models now).1 = some m → m.enabled = true) ∧
    ((∃ e ∈ models, e.enabled = true ∧ e.error_count < 5) →
      ∀ m, (_select_model models now).1 = some m → m.error_count < 5) ∧
    ((¬ ∃ e ∈ models, e.enabled = true ∧ e.error_count < 5) →
      ∀ e ∈ (_select_model models now).2, e.error_count = 0) ∧
    ((∀ e ∈ models, (1 : ℚ)/2 < now - e.last_used) →
      ∀ m, (_select_model models now).1 = some m →
        ∀ e ∈ (_select_model models now).2,
          e.enabled = true → e.error_count < 5 → endpointLe m e) := by
  have hfilter_iff : ∀ e : ModelEndpoint,
      (e.enabled && decide (e.error_count < 5)) = true ↔
        (e.enabled = true ∧ e.error_count < 5) := by
    intro e
    rw [Bool.and_eq_true, decide_eq_true_eq]
  by_cases hA : (models.filter
      (fun m => m.enabled && decide (m.error_count < 5))).isEmpty
  · -- no qualifying endpoint: global error reset
    have hsel : _select_model models now =
        (if ((models.map resetError).filter (fun m => m.enabled)).isEmpty
          then (none, models.map resetError)
          else (pickFrom now (((models.map resetError).filter
              (fun m => m.enabled)).insertionSort endpointLe),
            models.map resetError)) := by
      simp only [_select_model]
      rw [if_pos hA, if_pos hA]
    have hmem_avail : ∀ m,
        (_select_model models now).1 = some m →
          m ∈ (models.map resetError).filter (fun m => m.enabled) := by
      intro m hm
      rw [hsel] at hm
      by_cases hB : ((models.map resetError).filter
          (fun m => m.enabled)).isEmpty
      · rw [if_pos hB] at hm
        simp at hm
      · rw [if_neg hB] at hm
        simp only at hm
        have := pickFrom_mem now _ m hm
        exact ((((models.map resetError).filter
          (fun m => m.enabled)).perm_insertionSort endpointLe).mem_iff).mp this
    have hsnd : (_select_model models now).2 = models.map resetError := by
      rw [hsel]
      by_cases hB : ((models.map resetError).filter
          (fun m => m.enabled)).isEmpty
      · rw [if_pos hB]
      · rw [if_neg hB]
    refine ⟨?_, ?_, ?_, ?_⟩
    · intro m hm
      exact (List.mem_filter.mp (hmem_avail m hm)).2
    · intro hex m hm
      have := hmem_avail m hm
      have hmm : m ∈ models.map resetError := (List.mem_filter.mp this).1
      obtain ⟨x, _, hx⟩ := List.mem_map.mp hmm
      rw [← hx]
      simp [resetError]
    · intro _ e he
      rw [hsnd] at he
      obtain ⟨x, _, hx⟩ := List.mem_map.mp he
      rw [← hx]
      simp [resetError]
    · intro hrate m hm e he henb herr
      rw [hsnd] at he
      -- the rate hypothesis transfers to the reset endpoints
      have hrate2 : ∀ x ∈ (models.map resetError).filter (fun m => m.enabled),
          (1 : ℚ)/2 < now - x.last_used := by
        intro x hx
        obtain ⟨y, hy, hyx⟩ := List.mem_map.mp (List.mem_filter.mp hx).1
        rw [← hyx]
        exact hrate y hy
      have hrate3 : ∀ x ∈ ((models.map resetError).filter
          (fun m => m.enabled)).insertionSort endpointLe,
          (1 : ℚ)/2 < now - x.last_used := by
        intro x hx
        exact hrate2 x (((((models.map resetError).filter
          (fun m => m.enabled)).perm_insertionSort endpointLe).mem_iff).mp hx)
      rw [hsel] at hm
      by_cases hB : ((models.map resetError).filter
          (fun m => m.enabled)).isEmpty
      · rw [if_pos hB] at hm
        simp at hm
      · rw [if_neg hB] at hm
        simp only at hm
        rw [pickFrom_head_of_all now _ hrate3] at hm
        have hsorted := List.sorted_insertionSort endpointLe
          ((models.map resetError).filter (fun m => m.enabled))
        have he2 : e ∈ ((models.map resetError).filter
            (fun m => m.enabled)).insertionSort endpointLe := by
          refine ((((models.map resetError).filter
            (fun m => m.enabled)).perm_insertionSort endpointLe).mem_iff).mpr ?_
          exact List.mem_filter.mpr ⟨he, henb⟩
        rcases hsl : ((models.map resetError).filter
            (fun m => m.enabled)).insertionSort endpointLe with _ | ⟨a, rest⟩
        · rw [hsl] at he2
          simp at he2
        · rw [hsl] at hm
          simp only [List.head?_cons, Option.some.injEq] at hm
          subst hm
          rw [hsl] at he2 hsorted
          rcases List.mem_cons.mp he2 with h | h
          · subst h
            exact le_refl (endpointKey e)
          · exact List.rel_of_sorted_cons hsorted e h
  · -- qualifying endpoints exist: no reset
    have hsel : _select_model models now =
        (pickFrom now ((models.filter
            (fun m => m.enabled && decide (m.error_count < 5))).insertionSort
              endpointLe), models) := by
      simp only [_select_model]
      rw [if_neg hA, if_neg hA, if_neg hA]
    have hmem_avail : ∀ m,
        (_select_model models now).1 = some m →
          m ∈ models.filter (fun m => m.enabled && decide (m.error_count < 5)) := by
      intro m hm
      rw [hsel] at hm
      simp only at hm
      have := pickFrom_mem now _ m hm
      exact (((models.filter
        (fun m => m.enabled && decide (m.error_count < 5))).perm_insertionSort
          endpointLe).mem_iff).mp this
    refine ⟨?_, ?_, ?_, ?_⟩
    · intro m hm
      have := (List.mem_filter.mp (hmem_avail m hm)).2
      exact ((hfilter_iff m).mp this).1
    · intro _ m hm
      have := (List.mem_filter.mp (hmem_avail m hm)).2
      exact ((hfilter_iff m).mp this).2
    · intro hnex
      exfalso
      apply hnex
      rcases hne : models.filter
          (fun m => m.enabled && decide (m.error_count < 5)) with _ | ⟨a, rest⟩
      · rw [hne] at hA
        simp at hA
      · have ha : a ∈ models.filter
            (fun m => m.enabled && decide (m.error_count < 5)) := by
          rw [hne]
          exact List.mem_cons_self a rest
        have := List.mem_filter.mp ha
        exact ⟨a, this.1, (hfilter_iff a).mp this.2⟩
    · intro hrate m hm e he henb herr
      have hsnd : (_select_model models now).2 = models := by
        rw [hsel]
      rw [hsnd] at he
      have hrate3 : ∀ x ∈ (models.filter
          (fun m => m.enabled && decide (m.error_count < 5))).insertionSort
            endpointLe, (1 : ℚ)/2 < now - x.last_used := by
        intro x hx
        have hx2 := (((models.filter
          (fun m => m.enabled && decide (m.error_count < 5))).perm_insertionSort
            endpointLe).mem_iff).mp hx
        exact hrate x (List.mem_filter.mp hx2).1
      rw [hsel] at hm
      simp only at hm
      rw [pickFrom_head_of_all now _ hrate3] at hm
      have hsorted := List.sorted_insertionSort endpointLe
        (models.filter (fun m => m.enabled && decide (m.error_count < 5)))
      have he2 : e ∈ (models.filter
          (fun m => m.enabled && decide (m.error_count < 5))).insertionSort
            endpointLe := by
        refine (((models.filter
          (fun m => m.enabled && decide (m.error_count < 5))).perm_insertionSort
            endpointLe).mem_iff).mpr ?_
        exact List.mem_filter.mpr ⟨he, (hfilter_iff e).mpr ⟨henb, herr⟩⟩
      rcases hsl : (models.filter
          (fun m => m.enabled && decide (m.error_count < 5))).insertionSort
            endpointLe with _ | ⟨a, rest⟩
      · rw [hsl] at he2
        simp at he2
      · rw [hsl] at hm
        simp only [List.head?_cons, Option.some.injEq] at hm
        subst hm
        rw [hsl] at he2 hsorted
        rcases List.mem_cons.mp he2 with h | h
        · subst h
          exact le_refl (endpointKey e)
        · exact List.rel_of_sorted_cons hsorted e h

/-- A healthy high-priority endpoint for the C5 witness. -/
def epA : ModelEndpoint :=
  { name := "a", api_base := "http://a", api_key := "k", model := "m1",
    enabled := true, priority := 1, last_used := 0, error_count := 0,
    success_count := 3 }

/-- A failing low-priority endpoint for the C5 witness. -/
def epB : ModelEndpoint :=
  { name := "b", api_base := "http://b", api_key := "k", model := "m2",
    enabled := true, priority := 2, last_used := 0, error_count := 6,
    success_count := 0 }

/-- An enabled endpoint whose error count has saturated, for the C5 reset
branch. -/
def epC : ModelEndpoint :=
  { name := "c", api_base := "http://c", api_key := "k", model := "m3",
    enabled := true, priority := 1, last_used := 0, error_count := 7,
    success_count := 0 }

/-- Witness for C5 at concrete endpoint lists: the selected endpoint is
enabled with error count below 5, it is rank-minimal, and the reset branch
zeroes the error counters. -/
theorem select_model_spec_witness :
    epA.enabled = true ∧ epA.error_count < 5 ∧ endpointLe epA epA ∧
    (resetError epC).error_count = 0 :=
  ⟨(select_model_spec [epA, epB] 10).1 epA (by decide),
   (select_model_spec [epA, epB] 10).2.1 ⟨epA, by decide, by decide, by decide⟩
     epA (by decide),
   (select_model_spec [epA, epB] 10).2.2.2 (by decide) epA (by decide) epA
     (by decide) (by decide) (by decide),
   (select_model_spec [epC] 10).2.2.1 (by decide) (resetError epC) (by decide)⟩


/-! ### Batch result merging (`BatchOptimizer.merge_batch_results`,
`ia/analyzer/batch_optimizer.py` lines 249-283) and claim C6 -/

/-- An anomaly dict as read by `merge_batch_results`: the key fields, the
`severity` and `confidence` fields it reads with defaults, and a carried
payload field (`primary_reason`) representative of the data merging leaves
untouched. -/
structure MergedAnomaly where
  suite : String
  caseName : String
  metric : String
  severity : Option String := none
  confidence : Option ℚ := none
  primary_reason : String := ""
deriving DecidableEq, Repr

/-- The dedup key of line 260: `f"{suite}::{case}::{metric}"`. -/
def anomalyKeyStr (a : MergedAnomaly) : String :=
  a.suite ++ "::" ++ a.caseName ++ "::" ++ a.metric

/-- `anomaly.get("confidence", 0)` (lines 265). -/
def confPy (a : MergedAnomaly) : ℚ := a.confidence.getD 0

/-- One batch result dict: `anomalies` is present (`some`) or absent. -/
structure BatchResult where
  anomalies : Option (List MergedAnomaly) := none

/-- Insert-or-update of `unique_anomalies[key]` (lines 259-266): a fresh key
is appended, an existing key keeps its position and keeps the incumbent
record unless the new record's confidence is strictly higher. -/
def upsertAnomaly : List (String × MergedAnomaly) → String → MergedAnomaly →
    List (String × MergedAnomaly)
  | [], k, a => [(k, a)]
  | (k2, a2) :: rest, k, a =>
    if k2 = k then
      if confPy a2 < confPy a then (k2, a) :: rest else (k2, a2) :: rest
    else (k2, a2) :: upsertAnomaly rest k a

/-- The dedup dict of lines 258-266, as an insertion-ordered association
list. -/
def dedupByKey (l : List MergedAnomaly) : List (String × MergedAnomaly) :=
  l.foldl (fun m a => upsertAnomaly m (anomalyKeyStr a) a) []

/-- The `severity_counts` dict of lines 271-275. -/
structure SeverityCounts where
  high : ℕ
  medium : ℕ
  low : ℕ
deriving DecidableEq, Repr

/-- Severity tally of lines 271-275: `anomaly.get("severity", "low")`,
counted only when it is one of the three tracked tiers. -/
def countSeverities (l : List MergedAnomaly) : SeverityCounts :=
  l.foldl (fun c a =>
    let sev := a.severity.getD "low"
    if sev = "high" then { c with high := c.high + 1 }
    else if sev = "medium" then { c with medium := c.medium + 1 }
    else if sev = "low" then { c with low := c.low + 1 }
    else c) { high := 0, medium := 0, low := 0 }

/-- The merged-result summary (lines 278-283). -/
structure MergeSummary where
  total_anomalies : ℕ
  severity_counts : SeverityCounts
deriving DecidableEq, Repr

/-- The merged result (lines 277-283). -/
structure MergedResult where
  anomalies : List MergedAnomaly
  summary : MergeSummary
deriving DecidableEq, Repr

/-- `BatchOptimizer.merge_batch_results` from `ia/analyzer/batch_optimizer.py`
lines 249-283: concatenate the present anomaly lists, deduplicate by the
joined key keeping the higher-confidence record, and recompute the severity
counts over the deduplicated list. -/
def merge_batch_results (batch_results : List BatchResult) : MergedResult :=
  let all_anomalies :=
    batch_results.foldl (fun acc r => acc ++ r.anomalies.getD []) []
  let unique := dedupByKey all_anomalies
  let anomalies := unique.map Prod.snd
  { anomalies := anomalies
    summary := { total_anomalies := anomalies.length
                 severity_counts := countSeverities anomalies } }

theorem upsert_fresh (m : List (String × MergedAnomaly)) (k : String)
    (a : MergedAnomaly) (h : k ∉ m.map Prod.fst) :
    upsertAnomaly m k a = m ++ [(k, a)] := by
  induction m with
  | nil => rfl
  | cons p rest ih =>
    rcases p with ⟨k2, a2⟩
    simp only [List.map_cons, List.mem_cons] at h
    push_neg at h
    unfold upsertAnomaly
    rw [if_neg (fun hh => h.1 hh.symm)]
    rw [ih h.2]
    rfl

theorem upsert_keyfix (m : List (String × MergedAnomaly)) (a : MergedAnomaly)
    (h : ∀ p ∈ m, p.1 = anomalyKeyStr p.2) :
    ∀ p ∈ upsertAnomaly m (anomalyKeyStr a) a, p.1 = anomalyKeyStr p.2 := by
  induction m with
  | nil =>
    intro p hp
    simp only [upsertAnomaly, List.mem_singleton] at hp
    subst hp
    rfl
  | cons q rest ih =>
    rcases q with ⟨k2, a2⟩
    intro p hp
    unfold upsertAnomaly at hp
    by_cases hk : k2 = anomalyKeyStr a
    · rw [if_pos hk] at hp
      by_cases hc : confPy a2 < confPy a
      · rw [if_pos hc] at hp
        rcases List.mem_cons.mp hp with hh | hh
        · subst hh
          exact hk
        · exact h _ (List.mem_cons_of_mem _ hh)
      · rw [if_neg hc] at hp
        rcases List.mem_cons.mp hp with hh | hh
        · subst hh
          exact h _ (List.mem_cons_self _ _)
        · exact h _ (List.mem_cons_of_mem _ hh)
    · rw [if_neg hk] at hp
      rcases List.mem_cons.mp hp with hh | hh
      · subst hh
        exact h _ (List.mem_cons_self _ _)
      · exact ih (fun q hq => h q (List.mem_cons_of_mem _ hq)) p hh

theorem upsert_keys (m : List (String × MergedAnomaly)) (k : String)
    (a : MergedAnomaly) :
    (upsertAnomaly m k a).map Prod.fst = m.map Prod.fst ∨
    ((upsertAnomaly m k a).map Prod.fst = m.map Prod.fst ++ [k] ∧
      k ∉ m.map Prod.fst) := by
  induction m with
  | nil =>
    right
    constructor
    · rfl
    · simp
  | cons q rest ih =>
    rcases q with ⟨k2, a2⟩
    unfold upsertAnomaly
    by_cases hk : k2 = k
    · rw [if_pos hk]
      left
      by_cases hc : confPy a2 < confPy a
      · rw [if_pos hc]
        simp
      · rw [if_neg hc]
    · rw [if_neg hk]
      rcases ih with hl | ⟨hr, hfresh⟩
      · left
        simp only [List.map_cons, hl]
      · right
        constructor
        · simp only [List.map_cons, hr, List.cons_append]
        · simp only [List.map_cons, List.mem_cons]
          push_neg
          exact ⟨fun hh => hk hh.symm, hfresh⟩

theorem upsert_nodup (m : List (String × MergedAnomaly)) (k : String)
    (a : MergedAnomaly) (h : (m.map Prod.fst).Nodup) :
    ((upsertAnomaly m k a).map Prod.fst).Nodup := by
  rcases upsert_keys m k a with hl | ⟨hr, hfresh⟩
  · rw [hl]
    exact h
  · rw [hr]
    simp [List.nodup_append, h, hfresh]

theorem foldl_upsert_nodup (l : List MergedAnomaly) :
    ∀ m : List (String × MergedAnomaly), (m.map Prod.fst).Nodup →
    ((l.foldl (fun m a => upsertAnomaly m (anomalyKeyStr a) a) m).map
      Prod.fst).Nodup := by
  induction l with
  | nil => intro m h; exact h
  | cons a rest ih =>
    intro m h
    exact ih _ (upsert_nodup m (anomalyKeyStr a) a h)

theorem foldl_upsert_keyfix (l : List MergedAnomaly) :
    ∀ m : List (String × MergedAnomaly),
    (∀ p ∈ m, p.1 = anomalyKeyStr p.2) →
    ∀ p ∈ l.foldl (fun m a => upsertAnomaly m (anomalyKeyStr a) a) m,
      p.1 = anomalyKeyStr p.2 := by
  induction l with
  | nil => intro m h; exact h
  | cons a rest ih =>
    intro m h
    exact ih _ (upsert_keyfix m a h)

theorem foldl_upsert_fresh (l : List MergedAnomaly) :
    ∀ m : List (String × MergedAnomaly),
    (∀ a ∈ l, anomalyKeyStr a ∉ m.map Prod.fst) →
    (l.map anomalyKeyStr).Nodup →
    l.foldl (fun m a => upsertAnomaly m (anomalyKeyStr a) a) m
      = m ++ l.map (fun a => (anomalyKeyStr a, a)) := by
  induction l with
  | nil => intro m _ _; simp
  | cons a rest ih =>
    intro m hfresh hnodup
    simp only [List.map_cons, List.nodup_cons] at hnodup
    have h1 : upsertAnomaly m (anomalyKeyStr a) a = m ++ [(anomalyKeyStr a, a)] :=
      upsert_fresh m (anomalyKeyStr a) a (hfresh a (List.mem_cons_self a rest))
    simp only [List.foldl_cons, h1]
    rw [ih (m ++ [(anomalyKeyStr a, a)]) ?_ hnodup.2]
    · simp
    · intro b hb
      simp only [List.map_append, List.map_cons, List.map_nil, List.mem_append,
        List.mem_singleton]
      push_neg
      refine ⟨hfresh b (List.mem_cons_of_mem _ hb), ?_⟩
      intro hbk
      exact hnodup.1 (hbk ▸ List.mem_map_of_mem anomalyKeyStr hb)

theorem dedup_pair (a a2 : MergedAnomaly)
    (hkey : anomalyKeyStr a = anomalyKeyStr a2) :
    dedupByKey [a, a2] =
      [(anomalyKeyStr a, if confPy a < confPy a2 then a2 else a)] := by
  unfold dedupByKey
  simp only [List.foldl_cons, List.foldl_nil]
  have h1 : upsertAnomaly [] (anomalyKeyStr a) a = [(anomalyKeyStr a, a)] := rfl
  rw [h1]
  unfold upsertAnomaly
  rw [if_pos hkey]
  by_cases hc : confPy a < confPy a2
  · rw [if_pos hc, if_pos hc]
  · rw [if_neg hc, if_neg hc]

/-- C6: `merge_batch_results` deduplicates by the `(suite, case, metric)`
key: merging two records with the same key yields exactly one record for
that key — the incumbent unless the newcomer has strictly higher confidence,
hence the higher-confidence one whenever the confidences differ — with the
order of the two records immaterial; the recomputed severity counts reflect
the deduplicated list; and merging is idempotent. -/
theorem merge_batch_results_spec :
    (∀ a a2 : MergedAnomaly, anomalyKeyStr a = anomalyKeyStr a2 →
      (merge_batch_results [{ anomalies := some [a, a2] }]).anomalies
          = [if confPy a < confPy a2 then a2 else a] ∧
      confPy (if confPy a < confPy a2 then a2 else a)
          = max (confPy a) (confPy a2)) ∧
    (∀ a a2 : MergedAnomaly, anomalyKeyStr a = anomalyKeyStr a2 →
      confPy a ≠ confPy a2 →
      merge_batch_results [{ anomalies := some [a, a2] }]
          = merge_batch_results [{ anomalies := some [a2, a] }]) ∧
    (∀ rs : List BatchResult,
      (merge_batch_results rs).summary.total_anomalies
          = (merge_batch_results rs).anomalies.length ∧
      (merge_batch_results rs).summary.severity_counts
          = countSeverities (merge_batch_results rs).anomalies) ∧
    (∀ rs : List BatchResult,
      merge_batch_results
          [{ anomalies := some (merge_batch_results rs).anomalies }]
          = merge_batch_results rs) := by
  have hpair : ∀ a a2 : MergedAnomaly, anomalyKeyStr a = anomalyKeyStr a2 →
      (merge_batch_results [{ anomalies := some [a, a2] }]).anomalies
        = [if confPy a < confPy a2 then a2 else a] := by
    intro a a2 hkey
    show (dedupByKey [a, a2]).map Prod.snd = _
    rw [dedup_pair a a2 hkey]
    rfl
  refine ⟨?_, ?_, ?_, ?_⟩
  · intro a a2 hkey
    refine ⟨hpair a a2 hkey, ?_⟩
    by_cases hc : confPy a < confPy a2
    · rw [if_pos hc, max_eq_right (le_of_lt hc)]
    · rw [if_neg hc, max_eq_left (le_of_not_lt hc)]
  · intro a a2 hkey hne
    have h1 := dedup_pair a a2 hkey
    have h2 := dedup_pair a2 a hkey.symm
    have hd : dedupByKey [a, a2] = dedupByKey [a2, a] := by
      rw [h1, h2, hkey]
      by_cases hc : confPy a < confPy a2
      · rw [if_pos hc, if_neg (lt_asymm hc)]
      · rw [if_neg hc, if_pos (lt_of_le_of_ne (le_of_not_lt hc) (Ne.symm hne))]
    show (let anomalies := (dedupByKey [a, a2]).map Prod.snd
      ({ anomalies := anomalies
         summary := { total_anomalies := anomalies.length
                      severity_counts := countSeverities anomalies } } :
        MergedResult)) = _
    rw [hd]
    rfl
  · intro rs
    exact ⟨rfl, rfl⟩
  · intro rs
    have hnodup : ((dedupByKey (rs.foldl
        (fun acc r => acc ++ r.anomalies.getD []) [])).map Prod.fst).Nodup :=
      foldl_upsert_nodup _ [] (by simp)
    have hfix : ∀ p ∈ dedupByKey (rs.foldl
        (fun acc r => acc ++ r.anomalies.getD []) []),
        p.1 = anomalyKeyStr p.2 :=
      foldl_upsert_keyfix _ [] (by simp)
    have hAdef : (merge_batch_results rs).anomalies = (dedupByKey (rs.foldl
        (fun acc r => acc ++ r.anomalies.getD []) [])).map Prod.snd := rfl
    have hmapkeys : ((merge_batch_results rs).anomalies).map anomalyKeyStr
        = (dedupByKey (rs.foldl
            (fun acc r => acc ++ r.anomalies.getD []) [])).map Prod.fst := by
      rw [hAdef, List.map_map]
      exact List.map_congr_left (fun p hp => (hfix p hp).symm)
    have hnodupA :
        (((merge_batch_results rs).anomalies).map anomalyKeyStr).Nodup := by
      rw [hmapkeys]
      exact hnodup
    have hded : dedupByKey (merge_batch_results rs).anomalies
        = ((merge_batch_results rs).anomalies).map
            (fun a => (anomalyKeyStr a, a)) := by
      unfold dedupByKey
      rw [foldl_upsert_fresh _ [] (by simp) hnodupA]
      rfl
    have hsnd : (dedupByKey (merge_batch_results rs).anomalies).map Prod.snd
        = (merge_batch_results rs).anomalies := by
      rw [hded, List.map_map]
      exact (List.map_congr_left (fun a _ => rfl)).trans (List.map_id _)
    have hL : merge_batch_results
        [{ anomalies := some (merge_batch_results rs).anomalies }]
        = { anomalies := (dedupByKey (merge_batch_results rs).anomalies).map Prod.snd, summary := { total_anomalies := ((dedupByKey (merge_batch_results rs).anomalies).map Prod.snd).length, severity_counts := countSeverities ((dedupByKey (merge_batch_results rs).anomalies).map Prod.snd) } } := rfl
    rw [hL, hsnd]
    rfl

/-- A low-confidence anomaly record for the C6 witness. -/
def anomX : MergedAnomaly :=
  { suite := "s", caseName := "c", metric := "m", severity := some "high",
    confidence := some (3/10), primary_reason := "x" }

/-- A higher-confidence duplicate of [[anomX]]'s key for the C6 witness. -/
def anomY : MergedAnomaly :=
  { suite := "s", caseName := "c", metric := "m", severity := some "low",
    confidence := some (9/10), primary_reason := "y" }

/-- Witness for C6 at two concrete same-key records with distinct
confidences: exactly one survives, and order does not matter. -/
theorem merge_batch_results_spec_witness :
    (merge_batch_results [{ anomalies := some [anomX, anomY] }]).anomalies
        = [if confPy anomX < confPy anomY then anomY else anomX] ∧
    merge_batch_results [{ anomalies := some [anomX, anomY] }]
        = merge_batch_results [{ anomalies := some [anomY, anomX] }] :=
  ⟨(merge_batch_results_spec.1 anomX anomY (by decide)).1,
   merge_batch_results_spec.2.1 anomX anomY (by decide) (by decide)⟩


/-! ### Batch identifiers (`BatchOptimizer._generate_batch_id`,
`ia/analyzer/batch_optimizer.py` lines 192-202) and claim C7 -/

/-- 2^32, the word modulus of MD5. -/
def u32 : ℕ := 4294967296

/-- Bitwise complement within a 32-bit word. -/
def bnot32 (x : ℕ) : ℕ := 4294967295 - x

/-- 32-bit left rotation. -/
def rotl32 (x n : ℕ) : ℕ := ((x <<< n) % u32) ||| (x >>> (32 - n))

/-- The 64 MD5 sine-derived constants. -/
def mdK : List ℕ :=
  [3614090360, 3905402710, 606105819, 3250441966, 4118548399, 1200080426,
   2821735955, 4249261313, 1770035416, 2336552879, 4294925233, 2304563134,
   1804603682, 4254626195, 2792965006, 1236535329, 4129170786, 3225465664,
   643717713, 3921069994, 3593408605, 38016083, 3634488961, 3889429448,
   568446438, 3275163606, 4107603335, 1163531501, 2850285829, 4243563512,
   1735328473, 2368359562, 4294588738, 2272392833, 1839030562, 4259657740,
   2763975236, 1272893353, 4139469664, 3200236656, 681279174, 3936430074,
   3572445317, 76029189, 3654602809, 3873151461, 530742520, 3299628645,
   4096336452, 1126891415, 2878612391, 4237533241, 1700485571, 2399980690,
   4293915773, 2240044497, 1873313359, 4264355552, 2734768916, 1309151649,
   4149444226, 3174756917, 718787259, 3951481745]

/-- The 64 MD5 per-round shift amounts. -/
def mdS : List ℕ :=
  [7, 12, 17, 22, 7, 12, 17, 22, 7, 12, 17, 22, 7, 12, 17, 22,
   5, 9, 14, 20, 5, 9, 14, 20, 5, 9, 14, 20, 5, 9, 14, 20,
   4, 11, 16, 23, 4, 11, 16, 23, 4, 11, 16, 23, 4, 11, 16, 23,
   6, 10, 15, 21, 6, 10, 15, 21, 6, 10, 15, 21, 6, 10, 15, 21]

/-- MD5 padding: a 0x80 byte, zeros to 56 mod 64, and the 64-bit
little-endian bit length. -/
def md5Pad (m : List ℕ) : List ℕ :=
  let bitlen := 8 * m.length
  let m1 := m ++ [128]
  let padlen := (56 + 64 - m1.length % 64) % 64
  m1 ++ List.replicate padlen 0
    ++ (List.range 8).map (fun i => (bitlen >>> (8 * i)) % 256)

/-- The sixteen little-endian 32-bit words of one 64-byte block. -/
def md5Words (block : List ℕ) : List ℕ :=
  (List.range 16).map (fun j =>
    block.getD (4 * j) 0 + 256 * block.getD (4 * j + 1) 0
      + 65536 * block.getD (4 * j + 2) 0
      + 16777216 * block.getD (4 * j + 3) 0)

/-- One of the 64 MD5 rounds on the running `(a, b, c, d)` state. -/
def md5Round (m : List ℕ) (st : ℕ × ℕ × ℕ × ℕ) (i : ℕ) : ℕ × ℕ × ℕ × ℕ :=
  let a := st.1
  let b := st.2.1
  let c := st.2.2.1
  let d := st.2.2.2
  let f :=
    if i < 16 then (b &&& c) ||| (bnot32 b &&& d)
    else if i < 32 then (d &&& b) ||| (bnot32 d &&& c)
    else if i < 48 then b ^^^ c ^^^ d
    else c ^^^ (b ||| bnot32 d)
  let g :=
    if i < 16 then i
    else if i < 32 then (5 * i + 1) % 16
    else if i < 48 then (3 * i + 5) % 16
    else (7 * i) % 16
  let f2 := (f + a + mdK.getD i 0 + m.getD g 0) % u32
  (d, (b + rotl32 f2 (mdS.getD i 0)) % u32, b, c)

/-- MD5 compression of one 64-byte block into the chaining state. -/
def md5Block (st : ℕ × ℕ × ℕ × ℕ) (block : List ℕ) : ℕ × ℕ × ℕ × ℕ :=
  let m := md5Words block
  let r := (List.range 64).foldl (md5Round m) st
  ((st.1 + r.1) % u32, (st.2.1 + r.2.1) % u32,
    (st.2.2.1 + r.2.2.1) % u32, (st.2.2.2 + r.2.2.2) % u32)

/-- Lower-case hexadecimal digit. -/
def hexChar (n : ℕ) : Char :=
  if n < 10 then Char.ofNat (48 + n) else Char.ofNat (87 + n)

/-- The two hex characters of one byte, high nibble first. -/
def hexByte (b : ℕ) : List Char := [hexChar (b / 16), hexChar (b % 16)]

/-- The full lower-case hex MD5 digest of a byte list
(`hashlib.md5(...).hexdigest()`). -/
def md5Hex (msg : List ℕ) : String :=
  let padded := md5Pad msg
  let final := (List.range (padded.length / 64)).foldl
    (fun st bi => md5Block st ((padded.drop (64 * bi)).take 64))
    (1732584193, 4023233417, 2562383102, 271733878)
  let outBytes := ([final.1, final.2.1, final.2.2.1, final.2.2.2].map
    (fun w => (List.range 4).map (fun i => (w >>> (8 * i)) % 256))).flatten
  String.mk (outBytes.map hexByte).flatten

/-- UTF-8 bytes of a string, restricted to the ASCII strings the C7 inputs
use (`content.encode()`; code points below 128 encode as themselves). -/
def strBytes (s : String) : List ℕ := s.data.map Char.toNat

/-- A JSON string literal, faithful to `json.dumps` for strings without
escape-requiring characters (the only ones exercised here). -/
def jsonStr (s : String) : String := "\"" ++ s ++ "\""

/-- `json.dumps` rendering of a Python float, faithful for integral values
(rendered with a trailing `.0`); non-integral rationals fall back to the
rational rendering and are not exercised by any theorem. -/
def jsonNum (q : ℚ) : String :=
  if q.den = 1 then
    (if q.num < 0 then "-" ++ toString q.num.natAbs else toString q.num.natAbs)
      ++ ".0"
  else toString q

/-- The per-entry fragment of `_generate_batch_id`'s serialization as a
function of the `(suite, case, metric, value)` projection: `sort_keys=True`
sorts the four dict keys alphabetically (`case`, `metric`, `suite`,
`value`), and `json.dumps` separates items with `", "` and keys from values
with `": "`. -/
def entryJsonOfProj (p : String × String × String × ℚ) : String :=
  "\x7b\"case\": " ++ jsonStr p.2.1 ++ ", \"metric\": " ++ jsonStr p.2.2.1
    ++ ", \"suite\": " ++ jsonStr p.1 ++ ", \"value\": " ++ jsonNum p.2.2.2
    ++ "\x7d"

/-- The `(suite, case, metric, value)` projection read by
`_generate_batch_id`. -/
def entryProj (e : Entry) : String × String × String × ℚ :=
  (e.suite, e.caseName, e.metric, e.value)

/-- The serialized fragment of one entry. -/
def entryContentJson (e : Entry) : String := entryJsonOfProj (entryProj e)

/-- The `content` string of `_generate_batch_id` (lines 195-200):
`json.dumps` of the projected entry dicts, in entry order. -/
def batchContent (entries : List Entry) : String :=
  "[" ++ joinComma (entries.map entryContentJson) ++ "]"

/-- `BatchOptimizer._generate_batch_id` from `ia/analyzer/batch_optimizer.py`
lines 192-202: the first 12 hex characters of the MD5 of the serialized
entry content. -/
def _generate_batch_id (entries : List Entry) : String :=
  (md5Hex (strBytes (batchContent entries))).take 12


/-- First entry of the C7 counterexample. -/
def entryC7a : Entry := { suite := "s1", caseName := "c1", metric := "m1", value := 1 }

/-- Second entry of the C7 counterexample. -/
def entryC7b : Entry := { suite := "s2", caseName := "c2", metric := "m2", value := 2 }

/-- A copy of [[entryC7a]] differing only in the `unit` field, which
`_generate_batch_id` does not read. -/
def entryC7c : Entry :=
  { suite := "s1", caseName := "c1", metric := "m1", value := 1,
    unit := some "MB" }

set_option maxRecDepth 100000 in
/-- C7 counterexample: permuting the entry list changes the batch
identifier — `json.dumps(..., sort_keys=True)` sorts each dict's keys, not
the entry list, so the identifier is order-dependent (the ids here are
`6d7d0ebc2e74` and `e72400339f3c`). -/
theorem generate_batch_id_order_dependent :
    _generate_batch_id [entryC7a, entryC7b]
      ≠ _generate_batch_id [entryC7b, entryC7a] := by
  decide

/-- C7 amended: the batch identifier is deterministic in the *ordered*
sequence of `(suite, case, metric, value)` projections: two entry lists
with equal projection sequences (whatever their other fields) produce the
same identifier. -/
theorem generate_batch_id_deterministic (es es2 : List Entry)
    (h : es.map entryProj = es2.map entryProj) :
    _generate_batch_id es = _generate_batch_id es2 := by
  unfold _generate_batch_id batchContent
  have h1 : es.map entryContentJson = es2.map entryContentJson := by
    have e1 : es.map entryContentJson = (es.map entryProj).map entryJsonOfProj := by
      rw [List.map_map]
      rfl
    have e2 : es2.map entryContentJson
        = (es2.map entryProj).map entryJsonOfProj := by
      rw [List.map_map]
      rfl
    rw [e1, e2, h]
  rw [h1]

/-- Witness for C7's amended determinism at concrete entries differing only
in a field the identifier does not read. -/
theorem generate_batch_id_deterministic_witness :
    _generate_batch_id [entryC7a] = _generate_batch_id [entryC7c] :=
  generate_batch_id_deterministic [entryC7a] [entryC7c] (by decide)


/-! ### Progress tracker (`ia/analyzer/progress_tracker.py`) and claims
C9, C10 -/

/-- A JSON-serializable Python value as stored in the tracker's persisted
progress file. -/
inductive PyVal where
  | num (q : ℚ)
  | str (s : String)
  | noneV
  | dict (entries : List (String × PyVal))

/-- `d.get(k, dflt)` on a string-keyed dict. -/
def dGet (d : List (String × PyVal)) (k : String) (dflt : PyVal) : PyVal :=
  match d.find? (fun p => decide (p.1 = k)) with
  | some p => p.2
  | none => dflt

/-- Generic association lookup (`dict.get(k)` / `k in d` plus `d[k]`). -/
def lookupAssoc {α : Type} (l : List (String × α)) (k : String) : Option α :=
  match l.find? (fun p => decide (p.1 = k)) with
  | some p => some p.2
  | none => none

/-- Generic `d[k] = v`: replace in place when the key exists, else append. -/
def setAssoc {α : Type} : List (String × α) → String → α → List (String × α)
  | [], k, v => [(k, v)]
  | (k2, v2) :: rest, k, v =>
    if k2 = k then (k2, v) :: rest else (k2, v2) :: setAssoc rest k v

/-- `ProgressInfo` from `ia/analyzer/progress_tracker.py` lines 17-28.
`start_time`'s `default_factory=time.time` means a freshly constructed
record carries the construction-time clock. -/
structure ProgressInfo where
  job_id : String
  status : String := "pending"
  current_batch : ℕ := 0
  total_batches : ℕ := 0
  current_model : String := ""
  start_time : ℚ
  end_time : Option ℚ := none
  error_message : String := ""
  details : List (String × PyVal) := []

/-- `ProgressInfo.progress_percentage` (lines 30-35). -/
def progress_percentage (info : ProgressInfo) : ℚ :=
  if info.total_batches = 0 then 0
  else ((info.current_batch : ℚ) / (info.total_batches : ℚ)) * 100

/-- `ProgressInfo.elapsed_time` (lines 37-42), at clock time `now`. -/
def elapsed_time (info : ProgressInfo) (now : ℚ) : ℚ :=
  match info.end_time with
  | some e => e - info.start_time
  | none => now - info.start_time

/-- `ProgressInfo.estimated_remaining` (lines 44-51). -/
def estimated_remaining (info : ProgressInfo) (now : ℚ) : Option ℚ :=
  if info.current_batch = 0 ∨ info.total_batches = 0 then none
  else some ((elapsed_time info now / (info.current_batch : ℚ))
    * ((info.total_batches : ℚ) - (info.current_batch : ℚ)))

/-- Python `round(x, 1)` (on the exact rational; the float tie-breaking is
round-half-to-even). -/
def pyRound1 (q : ℚ) : ℚ := (roundHalfEven (q * 10) : ℚ) / 10

/-- Stands for `datetime.fromtimestamp(t).isoformat()` (line 66): the
calendar rendering itself is not modelled — every theorem depends only on
the fact that it is a string, not a number. -/
def isoformat (t : ℚ) : String := "iso:" ++ toString t

/-- `ProgressInfo.to_dict` (lines 53-68), at clock time `now`.  Note
`"start_time"` is serialized as the ISO-format *string*, and
`estimated_remaining` uses a truthiness test (`if self.estimated_remaining`)
that also maps an exact 0.0 to `None`. -/
def to_dict (info : ProgressInfo) (now : ℚ) : List (String × PyVal) :=
  [("job_id", .str info.job_id),
   ("status", .str info.status),
   ("current_batch", .num info.current_batch),
   ("total_batches", .num info.total_batches),
   ("progress_percentage", .num (pyRound1 (progress_percentage info))),
   ("current_model", .str info.current_model),
   ("elapsed_time", .num (pyRound1 (elapsed_time info now))),
   ("estimated_remaining",
     match estimated_remaining info now with
     | some r => if r = 0 then .noneV else .num (pyRound1 r)
     | none => .noneV),
   ("error_message", .str info.error_message),
   ("details", .dict info.details),
   ("start_time", .str (isoformat info.start_time)),
   ("end_time",
     match info.end_time with
     | some e => .str (isoformat e)
     | none => .noneV)]

/-- Python 3 `>` between a stored value and a float: defined for numbers,
a `TypeError` for strings, `None` and dicts. -/
def pyGtNum : PyVal → ℚ → Except String Bool
  | .num q, c => .ok (decide (c < q))
  | _, _ => .error "TypeError"

/-- Coercions used when rehydrating (`info.get(...)` values are fed to
`ProgressInfo` fields; in `to_dict` output they always have the right
shape). -/
def asStr (v : PyVal) (dflt : String) : String :=
  match v with
  | .str s => s
  | _ => dflt

/-- Numeric coercion for batch counters. -/
def asNat (v : PyVal) : ℕ :=
  match v with
  | .num q => q.num.toNat
  | _ => 0

/-- Dict coercion for the `details` field. -/
def asDict (v : PyVal) : List (String × PyVal) :=
  match v with
  | .dict d => d
  | _ => []

/-- The rehydration loop of `_load_persisted` (lines 89-99): jobs whose
`start_time` compares greater than `now - 3600` are re-registered; a
`TypeError` in the comparison propagates out of the loop into the blanket
`except`, keeping whatever had been registered up to that point. -/
def loadLoop (now : ℚ) :
    List (String × List (String × PyVal)) → List (String × ProgressInfo) →
      List (String × ProgressInfo)
  | [], acc => acc
  | (jid, info) :: rest, acc =>
    match pyGtNum (dGet info "start_time" (.num 0)) (now - 3600) with
    | .error _ => acc
    | .ok true => loadLoop now rest (acc ++ [(jid,
        { job_id := jid,
          status := asStr (dGet info "status" (.str "unknown")) "unknown",
          current_batch := asNat (dGet info "current_batch" (.num 0)),
          total_batches := asNat (dGet info "total_batches" (.num 0)),
          current_model := asStr (dGet info "current_model" (.str "")) "",
          error_message := asStr (dGet info "error_message" (.str "")) "",
          details := asDict (dGet info "details" (.dict [])),
          start_time := now })])
    | .ok false => loadLoop now rest acc

/-- `ProgressTracker._load_persisted` from `ia/analyzer/progress_tracker.py`
lines 81-101, applied to the parsed persisted file at clock time `now`. -/
def _load_persisted (data : List (String × List (String × PyVal)))
    (now : ℚ) : List (String × ProgressInfo) :=
  loadLoop now data []

/-- A job started ten seconds before the clock time 1000000, mid-run. -/
def pinfoC9 : ProgressInfo :=
  { job_id := "job1", status := "running", current_batch := 1,
    total_batches := 2, start_time := 999990 }

/-- C9 (code bug): a job whose recorded start time is well within the last
hour is persisted by `to_dict` with `start_time` as an ISO string; on load
the string-versus-number comparison raises `TypeError`, the blanket
`except` swallows it, and nothing at all is rehydrated — the recency window
never admits anyone. -/
theorem load_persisted_drops_recent_job :
    (1000000 : ℚ) - 3600 < pinfoC9.start_time ∧
    dGet (to_dict pinfoC9 1000000) "start_time" (.num 0)
      = .str (isoformat pinfoC9.start_time) ∧
    _load_persisted [("job1", to_dict pinfoC9 1000000)] 1000000 = [] :=
  ⟨by decide, rfl, rfl⟩

/-- Optional update arguments of `update_progress` (lines 127-133). -/
structure UpdateArgs where
  current_batch : Option ℕ := none
  total_batches : Option ℕ := none
  status : Option String := none
  current_model : Option String := none
  error_message : Option String := none
  details : Option (List (String × PyVal)) := none

/-- Python `dict.update`: existing keys are overwritten in place, new keys
appended in update order. -/
def dictUpdate (d upd : List (String × PyVal)) : List (String × PyVal) :=
  upd.foldl (fun acc p => setAssoc acc p.1 p.2) d

/-- The field updates of `update_progress` (lines 141-154), at clock time
`now`. -/
def applyUpdate (info : ProgressInfo) (args : UpdateArgs) (now : ℚ) :
    ProgressInfo :=
  let info := match args.current_batch with
    | some cb => { info with current_batch := cb }
    | none => info
  let info := match args.total_batches with
    | some tb => { info with total_batches := tb }
    | none => info
  let info := match args.status with
    | some s =>
      let info := { info with status := s }
      if s = "completed" ∨ s = "failed" then { info with end_time := some now }
      else info
    | none => info
  let info := match args.current_model with
    | some m => { info with current_model := m }
    | none => info
  let info := match args.error_message with
    | some m => { info with error_message := m }
    | none => info
  match args.details with
  | some d => { info with details := dictUpdate info.details d }
  | none => info

/-- The tracker's mutable state: the in-memory registry, the last persisted
snapshot (`none` if never written), and the log of `_notify` invocations. -/
structure TrackerState where
  progress : List (String × ProgressInfo)
  persisted : Option (List (String × List (String × PyVal))) := none
  notified : List String := []

/-- `ProgressTracker.update_progress` from `ia/analyzer/progress_tracker.py`
lines 127-158: an unknown job id returns `None` before any mutation; a known
id is updated, the full state is persisted, and `_notify` runs. -/
def update_progress (st : TrackerState) (now : ℚ) (job_id : String)
    (args : UpdateArgs) : Option ProgressInfo × TrackerState :=
  match lookupAssoc st.progress job_id with
  | none => (none, st)
  | some info =>
    let info2 := applyUpdate info args now
    let progress2 := setAssoc st.progress job_id info2
    (some info2,
      { progress := progress2,
        persisted := some (progress2.map (fun p => (p.1, to_dict p.2 now))),
        notified := st.notified ++ [job_id] })

/-- C10: updating an unknown job id returns `None` and leaves the tracker
state — registry, persisted snapshot, notification log — completely
unchanged. -/
theorem update_progress_unknown_id (st : TrackerState) (now : ℚ)
    (job_id : String) (args : UpdateArgs)
    (h : lookupAssoc st.progress job_id = none) :
    update_progress st now job_id args = (none, st) := by
  unfold update_progress
  rw [h]

/-- Witness for C10 at a concrete tracker holding one other job. -/
theorem update_progress_unknown_id_witness :
    update_progress
      { progress := [("job1", pinfoC9)] } 5 "nojob" {}
      = (none, { progress := [("job1", pinfoC9)] }) :=
  update_progress_unknown_id { progress := [("job1", pinfoC9)] } 5 "nojob" {}
    rfl


/-! ### Analysis orchestration with fallback (`K2Client._analyze_with_fallback`,
`ia/analyzer/k2_client.py` lines 304-356; `analyze_run`,
`ia/orchestrator/pipeline.py` lines 244-331) and claim C3 -/

/-- Severity tally over detector records (`batch_optimizer.py` lines
292-296 and `pipeline.py` `summarize`, lines 62-71): `severity` is present
on every record; only the three tracked tiers are counted. -/
def countSevRecords (l : List AnomalyRecord) : SeverityCounts :=
  l.foldl (fun c a =>
    if a.severity = "high" then { c with high := c.high + 1 }
    else if a.severity = "medium" then { c with medium := c.medium + 1 }
    else if a.severity = "low" then { c with low := c.low + 1 }
    else c) { high := 0, medium := 0, low := 0 }

/-- The `summary` sub-dict of an analysis result.  Keys the code may or may
not have set are `Option`s defaulting to `none` (absent). -/
structure K2Summary where
  total_anomalies : Option ℕ := none
  severity_counts : Option SeverityCounts := none
  analysis_model : Option String := none
  model_name : Option String := none
deriving DecidableEq, Repr

/-- An analysis result dict: the anomaly list plus its summary (the
`summary` key is created with `{}` when absent, which the default-empty
structure absorbs). -/
structure K2Result where
  anomalies : List AnomalyRecord
  summary : K2Summary := {}
deriving DecidableEq, Repr

/-- `BatchOptimizer.fallback_to_heuristic` from
`ia/analyzer/batch_optimizer.py` lines 285-304: the Statistical Detector's
result with recomputed severity counts (`heuristic_anomalies` is called
with its default minimum of 10 samples). -/
def fallback_to_heuristic (entries : List Entry)
    (history : MetricKey → List ℚ) : K2Result :=
  let anomalies := heuristic_anomalies entries history 10
  { anomalies := anomalies
    summary := { total_anomalies := some anomalies.length
                 severity_counts := some (countSevRecords anomalies) } }

/-- Replace the (aliased, in-place mutated) endpoint in the client's list:
`model.error_count += 1` etc. act on the list member itself. -/
def updateEndpoint (models : List ModelEndpoint) (old mNew : ModelEndpoint) :
    List ModelEndpoint :=
  match models with
  | [] => []
  | x :: rest =>
    if x = old then mNew :: rest else x :: updateEndpoint rest old mNew

/-- Lines 327-332: record the model that produced the result in its
summary (`analysis_model`/`model_name`), creating `summary` when absent. -/
def tagModel (result : K2Result) (m : ModelEndpoint) : K2Result :=
  { result with summary := { result.summary with
      analysis_model := some m.model, model_name := some m.name } }

/-- Lines 341-356: the exhaustion path — the heuristic result, explicitly
tagged `analysis_model = model_name = "heuristic"`. -/
def finishFallback (entries : List Entry) (history : MetricKey → List ℚ)
    (models : List ModelEndpoint) : K2Result × List ModelEndpoint :=
  let result := fallback_to_heuristic entries history
  ({ result with summary := { result.summary with
      analysis_model := some "heuristic", model_name := some "heuristic" } },
    models)

/-- The retry loop of `_analyze_with_fallback` (lines 311-339) over the
remaining attempt indices.  `call attempt endpoint` is the outcome of
`_analyze_with_model` for that attempt: `some result` on success, `none`
when it raises.  On entry to `_analyze_with_model` the endpoint's
`last_used` is set to the clock; a success increments `success_count` and
decrements `error_count` (floored at 0, which `ℕ` subtraction gives); a
failure increments `error_count` and sleeps `2 ^ attempt` seconds. -/
def attemptLoop (call : ℕ → ModelEndpoint → Option K2Result)
    (entries : List Entry) (history : MetricKey → List ℚ) :
    List ℕ → List ModelEndpoint → ℚ → K2Result × List ModelEndpoint
  | [], models, _ => finishFallback entries history models
  | attempt :: rest, models, now =>
    match _select_model models now with
    | (none, models2) => finishFallback entries history models2
    | (some m, models2) =>
      let m2 := { m with last_used := now }
      match call attempt m2 with
      | some result =>
        let m3 := { m2 with success_count := m2.success_count + 1,
                            error_count := m2.error_count - 1 }
        (tagModel result m, updateEndpoint models2 m m3)
      | none =>
        let m3 := { m2 with error_count := m2.error_count + 1 }
        attemptLoop call entries history rest (updateEndpoint models2 m m3)
          (now + 2 ^ attempt)

/-- `K2Client._analyze_with_fallback` from `ia/analyzer/k2_client.py` lines
304-356: up to three attempts (`for attempt in range(3)`), then the tagged
heuristic fallback.  Progress-tracker side effects are not part of the
modelled state. -/
def _analyze_with_fallback (models : List ModelEndpoint) (now : ℚ)
    (call : ℕ → ModelEndpoint → Option K2Result)
    (entries : List Entry) (history : MetricKey → List ℚ) :
    K2Result × List ModelEndpoint :=
  attemptLoop call entries history [0, 1, 2] models now

/-- `_normalize_k2_anomalies` from `ia/orchestrator/pipeline.py` lines
94-121, restricted to fully populated records (the heuristic detector's):
every field is carried through and the numeric confidence is rescaled from
a percentage when above 1. -/
def _normalize_k2_anomalies (items : List AnomalyRecord) : List AnomalyRecord :=
  items.map (fun a =>
    { a with confidence :=
        if 1 < a.confidence then a.confidence / 100 else a.confidence })

/-- The run summary produced by `summarize` (`pipeline.py` lines 62-71).
`analysis_model` and `model_name` model the later
`summ.get("analysis_model", "")` / `summ.get("model_name", "")` reads:
`summarize` never sets these keys, so they are `none` here. -/
structure RunSummary where
  total_anomalies : ℕ
  severity_counts : SeverityCounts
  analysis_model : Option String := none
  model_name : Option String := none
deriving DecidableEq, Repr

/-- `summarize` from `ia/orchestrator/pipeline.py` lines 62-71. -/
def summarize (anomalies : List AnomalyRecord) : RunSummary :=
  { total_anomalies := anomalies.length
    severity_counts := countSevRecords anomalies }

/-- The `analysis_engine` object written into the run summary. -/
structure EngineInfo where
  name : String
  version : String
  degraded : Bool
deriving DecidableEq, Repr

/-- The engine-labelling tail of `analyze_run` (`pipeline.py` lines
303-327): `actual_degraded = (not enabled) or ai_analysis_failed`;
`actual_model = summ.get("analysis_model", "")` (truthiness-tested), then
the three-way engine choice. -/
def engineLabel (enabled ai_analysis_failed : Bool) (summ : RunSummary)
    (providerName providerVersion : String) : EngineInfo :=
  let actual_degraded := !enabled || ai_analysis_failed
  let actual_model := summ.analysis_model.getD ""
  let model_name := summ.model_name.getD ""
  if actual_model ≠ "" ∧ actual_model ≠ "heuristic" then
    { name := actual_model
      version := if model_name ≠ "" then model_name else actual_model
      degraded := actual_degraded }
  else if actual_degraded then
    { name := "heuristic", version := "n/a", degraded := actual_degraded }
  else
    { name := if enabled then providerName else "heuristic"
      version := if enabled then providerVersion else "n/a"
      degraded := actual_degraded }

/-- The analysis core of `analyze_run`'s UnixBench path (`pipeline.py`
lines 244-331) for a run whose entries form a single suite group, with no
pre-existing result to reuse.  File IO, report generation and
progress-tracker calls are elided.  `ai_analysis_failed` is set only in the
`except` handler around `provider.analyze`; `K2Client.analyze` (via
`_analyze_with_fallback`) returns normally even when every endpoint fails,
so the handler never fires in that scenario and the flag stays `false`. -/
def analyzeRunUB (models : List ModelEndpoint) (now : ℚ)
    (call : ℕ → ModelEndpoint → Option K2Result)
    (entries : List Entry) (history : MetricKey → List ℚ)
    (providerName providerVersion : String) (min_samples : ℕ) :
    List AnomalyRecord × RunSummary × EngineInfo :=
  let enabled := !models.isEmpty
  let (anomalies, ai_analysis_failed) :=
    if enabled then
      ((_normalize_k2_anomalies
          (_analyze_with_fallback models now call entries history).1.anomalies),
        false)
    else (heuristic_anomalies entries history min_samples, false)
  let summ := summarize anomalies
  (anomalies, summ,
    engineLabel enabled ai_analysis_failed summ providerName providerVersion)

theorem attemptLoop_all_fail (call : ℕ → ModelEndpoint → Option K2Result)
    (entries : List Entry) (history : MetricKey → List ℚ)
    (hfail : ∀ i m, call i m = none) :
    ∀ (attempts : List ℕ) (models : List ModelEndpoint) (now : ℚ),
      (attemptLoop call entries history attempts models now).1
        = (finishFallback entries history models).1 := by
  intro attempts
  induction attempts with
  | nil => intro models now; rfl
  | cons attempt rest ih =>
    intro models now
    unfold attemptLoop
    rcases hsel : _select_model models now with ⟨opt, models2⟩
    rcases opt with _ | m
    · rfl
    · simp only [hfail]
      exact ih _ _

/-- C3 (code bug): when every endpoint fails on all three attempts,
`_analyze_with_fallback` does return the Statistical Detector's heuristic
result with its own summary tagged `analysis_model = model_name =
"heuristic"` — but it returns it *without raising*, so `analyze_run` never
sets `ai_analysis_failed`, rebuilds the summary with `summarize` (which has
no `analysis_model` key), and labels the run's `analysis_engine` with the
provider's name and `degraded = false`: the heuristic fallback is
mislabeled as model output at the run-summary level. -/
theorem analyze_run_all_endpoints_fail (models : List ModelEndpoint)
    (now : ℚ) (call : ℕ → ModelEndpoint → Option K2Result)
    (entries : List Entry) (history : MetricKey → List ℚ)
    (pname pver : String) (min_samples : ℕ)
    (hne : models.isEmpty = false) (hfail : ∀ i m, call i m = none) :
    ((_analyze_with_fallback models now call entries history).1.summary.analysis_model
        = some "heuristic" ∧
      (_analyze_with_fallback models now call entries history).1.summary.model_name
        = some "heuristic" ∧
      (_analyze_with_fallback models now call entries history).1.anomalies
        = heuristic_anomalies entries history 10) ∧
    (analyzeRunUB models now call entries history pname pver min_samples).2.2
        = { name := pname, version := pver, degraded := false } := by
  have hres : (_analyze_with_fallback models now call entries history).1
      = (finishFallback entries history models).1 :=
    attemptLoop_all_fail call entries history hfail [0, 1, 2] models now
  constructor
  · rw [hres]
    exact ⟨rfl, rfl, rfl⟩
  · unfold analyzeRunUB
    rw [hne]
    rfl

/-- Witness for C3 at two concrete enabled endpoints whose calls always
fail: the fallback result is heuristic-tagged, yet the run summary's engine
label keeps the provider name with `degraded = false`. -/
theorem analyze_run_all_endpoints_fail_witness :
    (_analyze_with_fallback [epA, epB] 0 (fun _ _ => none) [entryC8]
        (fun _ => histC8)).1.summary.analysis_model = some "heuristic" ∧
    (analyzeRunUB [epA, epB] 0 (fun _ _ => none) [entryC8]
        (fun _ => histC8) "kimi-k2" "1.0" 10).2.2
      = { name := "kimi-k2", version := "1.0", degraded := false } :=
  ⟨(analyze_run_all_endpoints_fail [epA, epB] 0 (fun _ _ => none) [entryC8]
      (fun _ => histC8) "kimi-k2" "1.0" 10 rfl (fun _ _ => rfl)).1.1,
   (analyze_run_all_endpoints_fail [epA, epB] 0 (fun _ _ => none) [entryC8]
      (fun _ => histC8) "kimi-k2" "1.0" 10 rfl (fun _ _ => rfl)).2⟩


end IA
